import Mathlib

/-!
Verification development for the repository-bootstrap core of `libwyag.py`
(repository locator/validator `GitRepository.__init__`, path resolver
`repo_path` / `repo_file` / `repo_dir`, bootstrapper `repo_create`, and the
default configuration `repo_default_config`).

The filesystem is modelled as a finite tree of named entries; paths are a
flag saying whether the path is absolute plus a list of components, and a
filesystem state carries the tree root together with the current working
directory (relative paths resolve against it, as in `os.path`).  Every
operation of the source threads the filesystem state explicitly and an
error result carries the state at the moment the exception was raised, so
that claims about what a failed call has or has not modified are statable.

Modelling conventions (each noted again at the definition it concerns):
* `os.path.join` is only ever called with relative fragments in the source,
  so it is modelled as appending components;
* the INI parsing done by Python `configparser` is abstracted: file
  contents are either raw text or an already-parsed configuration, and
  reading a raw-text file as a configuration yields the empty
  configuration (the source never does this on any path the claims
  exercise);
* Python `int(...)` on a string is modelled by a decimal-literal parser
  (`pyInt`).
-/

/-- Association lookup over a list of named entries, first match wins
(models both directory-entry lookup and `configparser` section/option
lookup). -/
def assoc {α : Type} : List (String × α) → String → Option α
  | [], _ => none
  | (k, v) :: rest, n => if k = n then some v else assoc rest n

/-- Replace the value stored under a name, leaving the list unchanged when
the name is absent. -/
def updateEntry {α : Type} : List (String × α) → String → α → List (String × α)
  | [], _, _ => []
  | (k, v) :: rest, n, w => if k = n then (k, w) :: rest else (k, v) :: updateEntry rest n w

/-- `leadOf a b` is true when the component list `a` is an initial segment
of `b` (used to phrase frame properties about which paths a call may
touch). -/
def leadOf : List String → List String → Bool
  | [], _ => true
  | _ :: _, [] => false
  | a :: as, b :: bs => if a = b then leadOf as bs else false

/-- An INI-style configuration: ordered sections, each an ordered list of
`key = value` pairs, as `configparser` presents them. -/
structure GitConfig where
  sections : List (String × List (String × String))
deriving DecidableEq, Repr

/-- A freshly constructed `configparser.ConfigParser()` with nothing read
into it. -/
def GitConfig.empty : GitConfig := ⟨[]⟩

/-- `conf.get(section, option)` restricted to the lookup behaviour the
source relies on (no interpolation, no DEFAULT fallback). -/
def GitConfig.get (c : GitConfig) (sec key : String) : Option String :=
  match assoc c.sections sec with
  | some opts => assoc opts key
  | none => none

/-- `repo_default_config` of the source: `add_section("core")` then the
three `set` calls, in order. -/
def repo_default_config : GitConfig :=
  ⟨[("core", [("repositoryformatversion", "0"), ("filemode", "false"), ("bare", "false")])]⟩

/-- Content of a file in the model: either raw text (what `f.write`
produced) or a serialized configuration (what `config.write(f)` produced,
kept in parsed form so that reading it back is exact). -/
inductive FileData where
  | text (s : String)
  | iniConf (c : GitConfig)
deriving DecidableEq

/-- `configparser.read` on the content of one file.  Abstraction: the
source only ever reads back configurations it (or a peer) serialized, so a
raw-text file is modelled as parsing to the empty configuration rather
than as a parse error. -/
def parseData : FileData → GitConfig
  | FileData.iniConf c => c
  | FileData.text _ => GitConfig.empty

/-- Value of one decimal digit character. -/
def digitVal (c : Char) : Option Nat :=
  if c.isDigit then some (c.toNat - 48) else none

/-- Accumulate the value of a digit string, failing on a non-digit. -/
def digitsValAux : List Char → Nat → Option Nat
  | [], acc => some acc
  | c :: cs, acc =>
    match digitVal c with
    | some d => digitsValAux cs (acc * 10 + d)
    | none => none

/-- Python `int(s)`, modelled for optionally-negated decimal literals (an
absent result models the `ValueError`; whitespace stripping and
underscore separators, which the source never feeds it, are not
modelled). -/
def pyInt (s : String) : Option Int :=
  match s.data with
  | [] => none
  | '-' :: [] => none
  | '-' :: c :: cs => (digitsValAux (c :: cs) 0).map (fun n => -(n : Int))
  | c :: cs => (digitsValAux (c :: cs) 0).map (fun n => (n : Int))

/-- A filesystem node: a regular file with content, or a directory with an
ordered list of named children. -/
inductive FSTree where
  | file (d : FileData)
  | dir (entries : List (String × FSTree))

/-- Follow a component list down the tree; `none` when any component is
missing or descends into a file. -/
def lookupT : FSTree → List String → Option FSTree
  | t, [] => some t
  | FSTree.file _, _ :: _ => none
  | FSTree.dir es, n :: rest =>
    match assoc es n with
    | some t => lookupT t rest
    | none => none

/-- A chain of brand-new empty directories, one per component. -/
def freshDirs : List String → FSTree
  | [] => FSTree.dir []
  | n :: rest => FSTree.dir [(n, freshDirs rest)]

/-- `os.makedirs`: create every missing directory along the path; fails
(`none`) when an existing entry along the way is a regular file. -/
def makedirs : FSTree → List String → Option FSTree
  | FSTree.file _, _ => none
  | FSTree.dir es, [] => some (FSTree.dir es)
  | FSTree.dir es, n :: rest =>
    match assoc es n with
    | some sub =>
      match makedirs sub rest with
      | some sub' => some (FSTree.dir (updateEntry es n sub'))
      | none => none
    | none => some (FSTree.dir (es ++ [(n, freshDirs rest)]))

/-- `open(p, "w")` followed by a single write: create or truncate the file
at `p`.  Fails (`none`) when the parent chain is missing, descends into a
file, or the target is a directory. -/
def writeFile : FSTree → List String → FileData → Option FSTree
  | _, [], _ => none
  | FSTree.file _, _ :: _, _ => none
  | FSTree.dir es, [n], d =>
    match assoc es n with
    | some (FSTree.dir _) => none
    | some (FSTree.file _) => some (FSTree.dir (updateEntry es n (FSTree.file d)))
    | none => some (FSTree.dir (es ++ [(n, FSTree.file d)]))
  | FSTree.dir es, n :: m :: rest, d =>
    match assoc es n with
    | some sub =>
      match writeFile sub (m :: rest) d with
      | some sub' => some (FSTree.dir (updateEntry es n sub'))
      | none => none
    | none => none

/-- Replace the subtree found at a path, a no-op when the path is absent
(used only to state and prove how `makedirs`/`writeFile` act under a
prefix; it is not part of the source model itself). -/
def updateSubtree : FSTree → List String → FSTree → FSTree
  | _, [], new => new
  | FSTree.file d, _ :: _, _ => FSTree.file d
  | FSTree.dir es, n :: rest, new =>
    match assoc es n with
    | some sub => FSTree.dir (updateEntry es n (updateSubtree sub rest new))
    | none => FSTree.dir es

/-- A Python path string, abstracted to an absolute-or-relative flag plus
its components. -/
structure PyPath where
  absolute : Bool
  comps : List String
deriving DecidableEq, Repr

/-- `os.path.join(p, *frag)` for the relative fragments the source uses:
append the components, keep the absoluteness of the head. -/
def pyJoin (p : PyPath) (frag : List String) : PyPath :=
  ⟨p.absolute, p.comps ++ frag⟩

/-- Filesystem state: the root tree plus the current working directory
that relative paths resolve against. -/
structure FS where
  root : FSTree
  cwd : List String

/-- Resolve a path to root-relative components (`os.path` semantics:
relative paths are interpreted against the current working directory). -/
def FS.resolve (fs : FS) (p : PyPath) : List String :=
  if p.absolute then p.comps else fs.cwd ++ p.comps

/-- Node found at a path, if any. -/
def FS.lookupPath (fs : FS) (p : PyPath) : Option FSTree :=
  lookupT fs.root (fs.resolve p)

/-- `os.path.exists`. -/
def FS.existsPath (fs : FS) (p : PyPath) : Bool :=
  (fs.lookupPath p).isSome

/-- `os.path.isdir`. -/
def FS.isDir (fs : FS) (p : PyPath) : Bool :=
  match fs.lookupPath p with
  | some (FSTree.dir _) => true
  | _ => false

/-- `os.listdir`, restricted to the call site of the source (only its
emptiness is consulted, and only on an existing directory). -/
def FS.listdir (fs : FS) (p : PyPath) : List String :=
  match fs.lookupPath p with
  | some (FSTree.dir es) => es.map Prod.fst
  | _ => []

/-- `os.makedirs` lifted to filesystem states. -/
def FS.makedirsP (fs : FS) (p : PyPath) : Option FS :=
  match makedirs fs.root (fs.resolve p) with
  | some t => some ⟨t, fs.cwd⟩
  | none => none

/-- File creation/truncation lifted to filesystem states. -/
def FS.writeFileP (fs : FS) (p : PyPath) (d : FileData) : Option FS :=
  match writeFile fs.root (fs.resolve p) d with
  | some t => some ⟨t, fs.cwd⟩
  | none => none

/-- The exceptions the source raises, one constructor per distinct raise
site family (plus `ioError` for failures of the underlying `os` calls,
e.g. an obstructed `makedirs`, a failed `assert`, or `open(None, "w")`). -/
inductive RepoError where
  | notARepository
  | missingConfig
  | unsupportedFormatVersion
  | notADirectory
  | targetNotEmpty
  | ioError
deriving DecidableEq, Repr

/-- Outcome of one operation: a value or a raised error, in both cases
together with the filesystem state at that moment (an error carries the
state accumulated before the raise, which is what makes non-modification
claims statable). -/
inductive Res (α : Type) where
  | ok (a : α) (fs : FS)
  | err (e : RepoError) (fs : FS)

/-- The filesystem state an outcome left behind. -/
def Res.fs {α : Type} : Res α → FS
  | Res.ok _ f => f
  | Res.err _ f => f

/-- Whether the operation returned normally. -/
def Res.isOk {α : Type} : Res α → Bool
  | Res.ok _ _ => true
  | Res.err _ _ => false

/-- The `GitRepository` object: `worktree`, `gitdir`, and the loaded
configuration `conf`. -/
structure GitRepository where
  worktree : PyPath
  gitdir : PyPath
  conf : GitConfig

/-- `repo_path(repo, *path)`: compute a path under the gitdir.  Pure by
construction — it takes no filesystem state. -/
def repo_path (repo : GitRepository) (path : List String) : PyPath :=
  pyJoin repo.gitdir path

/-- `repo_dir(repo, *path, mkdir)`: return the directory path, creating it
when `mkdir`; raises `Not a directory` when the entry exists as a file,
returns `none` when absent and `mkdir` is false. -/
def repo_dir (fs : FS) (repo : GitRepository) (path : List String) (mkdir : Bool) :
    Res (Option PyPath) :=
  match fs.lookupPath (repo_path repo path) with
  | some (FSTree.dir _) => Res.ok (some (repo_path repo path)) fs
  | some (FSTree.file _) => Res.err RepoError.notADirectory fs
  | none =>
    if mkdir then
      match fs.makedirsP (repo_path repo path) with
      | some fs' => Res.ok (some (repo_path repo path)) fs'
      | none => Res.err RepoError.ioError fs
    else Res.ok none fs

/-- `repo_file(repo, *path, mkdir)`: like `repo_path` but first ensure the
parent directory (all components but the last) via `repo_dir`; the Python
function returns `None` implicitly when `repo_dir` did. -/
def repo_file (fs : FS) (repo : GitRepository) (path : List String) (mkdir : Bool) :
    Res (Option PyPath) :=
  match repo_dir fs repo path.dropLast mkdir with
  | Res.ok (some _) fs' => Res.ok (some (repo_path repo path)) fs'
  | Res.ok none fs' => Res.ok none fs'
  | Res.err e fs' => Res.err e fs'

/-- Read a configuration file at a path (`self.conf.read([cf])`); reading
anything other than a regular file leaves the parser empty, matching
`configparser.read` ignoring unreadable names. -/
def readConfigFile (fs : FS) (p : PyPath) : GitConfig :=
  match fs.lookupPath p with
  | some (FSTree.file d) => parseData d
  | _ => GitConfig.empty

/-- Lines 100–104 of the source: unless `force`, fetch
`core.repositoryformatversion`, convert with `int(...)`, and require the
value `0`; missing section/option is modelled as `missingConfig` and a
non-integer as `unsupportedFormatVersion`. -/
def repo_validate (fs : FS) (worktree gitdir : PyPath) (conf : GitConfig) (force : Bool) :
    Res GitRepository :=
  if force then Res.ok ⟨worktree, gitdir, conf⟩ fs
  else
    match conf.get "core" "repositoryformatversion" with
    | none => Res.err RepoError.missingConfig fs
    | some s =>
      match pyInt s with
      | none => Res.err RepoError.unsupportedFormatVersion fs
      | some v =>
        if v ≠ 0 then Res.err RepoError.unsupportedFormatVersion fs
        else Res.ok ⟨worktree, gitdir, conf⟩ fs

/-- `GitRepository.__init__(path, force)` — the `open` operation of the
spec: set `worktree` and `gitdir`, require `gitdir` to be a directory
unless `force`, locate and read `.git/config` through `repo_file`, then
validate. -/
def GitRepository.init (fs : FS) (path : PyPath) (force : Bool) : Res GitRepository :=
  if !(force || fs.isDir (pyJoin path [".git"])) then Res.err RepoError.notARepository fs
  else
    match repo_file fs ⟨path, pyJoin path [".git"], GitConfig.empty⟩ ["config"] false with
    | Res.err e fs' => Res.err e fs'
    | Res.ok cf fs' =>
      match cf with
      | some p =>
        if fs'.existsPath p then
          repo_validate fs' path (pyJoin path [".git"]) (readConfigFile fs' p) force
        else if !force then Res.err RepoError.missingConfig fs'
        else repo_validate fs' path (pyJoin path [".git"]) GitConfig.empty force
      | none =>
        if !force then Res.err RepoError.missingConfig fs'
        else repo_validate fs' path (pyJoin path [".git"]) GitConfig.empty force

/-- Lines 151–157 of `repo_create`: the worktree/gitdir precondition
checks, creating the worktree when absent. -/
def repo_create_check (fs : FS) (repo : GitRepository) : Res Unit :=
  if fs.existsPath repo.worktree then
    if !fs.isDir repo.worktree then Res.err RepoError.notADirectory fs
    else if fs.existsPath repo.gitdir && !(fs.listdir repo.gitdir).isEmpty then
      Res.err RepoError.targetNotEmpty fs
    else Res.ok () fs
  else
    match fs.makedirsP repo.worktree with
    | some fs' => Res.ok () fs'
    | none => Res.err RepoError.ioError fs

/-- One `assert repo_dir(repo, *path, mkdir=True)` line: a `None` result
would fail the assertion (modelled as `ioError`). -/
def repo_assert_dir (fs : FS) (repo : GitRepository) (path : List String) : Res Unit :=
  match repo_dir fs repo path true with
  | Res.ok (some _) fs' => Res.ok () fs'
  | Res.ok none fs' => Res.err RepoError.ioError fs'
  | Res.err e fs' => Res.err e fs'

/-- The four `assert repo_dir(...)` lines of `repo_create`. -/
def repo_create_dirs (fs : FS) (repo : GitRepository) : Res Unit :=
  match repo_assert_dir fs repo ["branches"] with
  | Res.err e f => Res.err e f
  | Res.ok _ f1 =>
    match repo_assert_dir f1 repo ["objects"] with
    | Res.err e f => Res.err e f
    | Res.ok _ f2 =>
      match repo_assert_dir f2 repo ["refs", "tags"] with
      | Res.err e f => Res.err e f
      | Res.ok _ f3 => repo_assert_dir f3 repo ["refs", "heads"]

/-- `with open(repo_file(repo, name), "w") as f: …write(content)` — the
Python `open(None, "w")` that a `None` from `repo_file` would trigger is
modelled as `ioError`. -/
def repo_write (fs : FS) (repo : GitRepository) (name : String) (d : FileData) : Res Unit :=
  match repo_file fs repo [name] false with
  | Res.err e f => Res.err e f
  | Res.ok none f => Res.err RepoError.ioError f
  | Res.ok (some p) f =>
    match f.writeFileP p d with
    | some f1 => Res.ok () f1
    | none => Res.err RepoError.ioError f

/-- Content written to `.git/description`. -/
def descriptionText : String :=
  "Unnamed repository; edit this file \x27description\x27 to name the repository.\n"

/-- Content written to `.git/HEAD` by the first `open(..., "w")` block. -/
def headText : String := "ref: refs/heads/master\n"

/-- `repo_create(path)`: provisional handle with `force=True`, the
emptiness checks, the four directories, the `description` file, the `HEAD`
file — and then the second `open(repo_file(repo, "HEAD"), "w")` block of
block, which serializes the default configuration to the `HEAD` path
again, exactly as the Python does. -/
def repo_create (fs : FS) (path : PyPath) : Res GitRepository :=
  match GitRepository.init fs path true with
  | Res.err e f => Res.err e f
  | Res.ok repo f0 =>
    match repo_create_check f0 repo with
    | Res.err e f => Res.err e f
    | Res.ok _ f1 =>
      match repo_create_dirs f1 repo with
      | Res.err e f => Res.err e f
      | Res.ok _ f2 =>
        match repo_write f2 repo "description" (FileData.text descriptionText) with
        | Res.err e f => Res.err e f
        | Res.ok _ f3 =>
          match repo_write f3 repo "HEAD" (FileData.text headText) with
          | Res.err e f => Res.err e f
          | Res.ok _ f4 =>
            match repo_write f4 repo "HEAD" (FileData.iniConf repo_default_config) with
            | Res.err e f => Res.err e f
            | Res.ok _ f5 => Res.ok repo f5

/-! ### Concrete fixtures -/

/-- An empty filesystem: an empty root directory, current working
directory at the root. -/
def fsEmpty : FS := ⟨FSTree.dir [], []⟩

/-- The absolute target path `/tmp/r1`. -/
def pTmpR1 : PyPath := ⟨true, ["tmp", "r1"]⟩

/-- The absolute path `/tmp/nonexistent`. -/
def pNonexistent : PyPath := ⟨true, ["tmp", "nonexistent"]⟩

/-! ### Claim theorems -/

/-- Claim C1 (code bug): on the empty target `/tmp/r1`, `repo_create`
itself returns normally, but re-opening the repository it created with
`force=false` fails with `missingConfig`: the source serializes the
default configuration to the `HEAD` path instead of `config`, so
`.git/config` never comes into existence and the claimed round trip is
broken. -/
theorem create_then_reopen_fails :
    (repo_create fsEmpty pTmpR1).isOk = true ∧
    GitRepository.init (repo_create fsEmpty pTmpR1).fs pTmpR1 false =
      Res.err RepoError.missingConfig (repo_create fsEmpty pTmpR1).fs :=
  ⟨rfl, rfl⟩

/-- Claim C2 (code bug): `repo_create` on the empty target `/tmp/r1`
produces only six entries under `.git` — `branches`, `objects`,
`refs/tags`, `refs/heads`, `description`, and a `HEAD` whose content is
the serialized default configuration rather than the ref line — and no
`config` entry at all, instead of the seven entries the claim lists. -/
theorem create_layout_six_entries :
    (repo_create fsEmpty pTmpR1).isOk = true ∧
    lookupT (repo_create fsEmpty pTmpR1).fs.root ["tmp", "r1", ".git"] =
      some (FSTree.dir
        [("branches", FSTree.dir []),
         ("objects", FSTree.dir []),
         ("refs", FSTree.dir [("tags", FSTree.dir []), ("heads", FSTree.dir [])]),
         ("description", FSTree.file (FileData.text descriptionText)),
         ("HEAD", FSTree.file (FileData.iniConf repo_default_config))]) ∧
    lookupT (repo_create fsEmpty pTmpR1).fs.root ["tmp", "r1", ".git", "config"] = none ∧
    lookupT (repo_create fsEmpty pTmpR1).fs.root ["tmp", "r1", ".git", "HEAD"] ≠
      some (FSTree.file (FileData.text headText)) :=
  ⟨rfl, rfl, rfl, by intro h; exact absurd (Option.some.inj h) (by intro h2; cases h2)⟩

/-- Claim C4: whenever `path/.git` is missing or is not a directory,
opening without `force` raises `Not a Git repository`. -/
theorem open_missing_gitdir_fails (fs : FS) (p : PyPath)
    (h : fs.isDir (pyJoin p [".git"]) = false) :
    GitRepository.init fs p false = Res.err RepoError.notARepository fs := by
  simp [GitRepository.init, h]

/-- Witness for C4 at the concrete input `/tmp/nonexistent` on the empty
filesystem. -/
theorem open_missing_gitdir_fails_witness :
    fsEmpty.isDir (pyJoin pNonexistent [".git"]) = false ∧
    GitRepository.init fsEmpty pNonexistent false =
      Res.err RepoError.notARepository fsEmpty :=
  ⟨rfl, open_missing_gitdir_fails fsEmpty pNonexistent rfl⟩

/-! ### Path and lookup lemmas -/

/-- Joining the empty fragment is the identity. -/
theorem pyJoin_nil (p : PyPath) : pyJoin p [] = p := by
  simp [pyJoin]

/-- Joining fragments composes by list append. -/
theorem pyJoin_pyJoin (p : PyPath) (a b : List String) :
    pyJoin (pyJoin p a) b = pyJoin p (a ++ b) := by
  simp [pyJoin]

/-- Resolution distributes over joining a relative fragment. -/
theorem resolve_pyJoin (fs : FS) (p : PyPath) (frag : List String) :
    fs.resolve (pyJoin p frag) = fs.resolve p ++ frag := by
  unfold FS.resolve pyJoin
  by_cases h : p.absolute <;> simp [h, List.append_assoc]

/-- Tree lookup along an appended path factors through the intermediate
node. -/
theorem lookupT_append (t : FSTree) (a b : List String) :
    lookupT t (a ++ b) = (lookupT t a).bind (fun n => lookupT n b) := by
  induction a generalizing t with
  | nil => simp [lookupT]
  | cons x xs ih =>
    cases t with
    | file d => simp [lookupT]
    | dir es =>
      simp only [List.cons_append, lookupT]
      cases assoc es x with
      | none => simp
      | some sub => exact ih sub

/-- Path lookup after a join factors through the node at the head path. -/
theorem lookupPath_pyJoin (fs : FS) (p : PyPath) (frag : List String) :
    fs.lookupPath (pyJoin p frag) = (fs.lookupPath p).bind (fun n => lookupT n frag) := by
  unfold FS.lookupPath
  rw [resolve_pyJoin, lookupT_append]

/-- Claim C3: when `.git` is a directory and `.git/config` is a
configuration file whose `core.repositoryformatversion` is present and
parses to the integer `v`, opening without `force` succeeds exactly when
`v = 0` (returning the loaded configuration) and fails with
`unsupportedFormatVersion` when `v ≠ 0`. -/
theorem open_formatversion_validation (fs : FS) (p : PyPath) (conf : GitConfig)
    (es : List (String × FSTree)) (s : String) (v : Int)
    (hdir : fs.lookupPath (pyJoin p [".git"]) = some (FSTree.dir es))
    (hcfg : fs.lookupPath (pyJoin p [".git", "config"]) = some (FSTree.file (FileData.iniConf conf)))
    (hget : conf.get "core" "repositoryformatversion" = some s)
    (hint : pyInt s = some v) :
    (v = 0 → GitRepository.init fs p false = Res.ok ⟨p, pyJoin p [".git"], conf⟩ fs) ∧
    (v ≠ 0 → GitRepository.init fs p false = Res.err RepoError.unsupportedFormatVersion fs) := by
  have hjoin : pyJoin (pyJoin p [".git"]) ["config"] = pyJoin p [".git", "config"] := by
    rw [pyJoin_pyJoin]
    rfl
  have hexists : fs.existsPath (pyJoin p [".git", "config"]) = true := by
    unfold FS.existsPath
    rw [hcfg]
    rfl
  have hread : readConfigFile fs (pyJoin p [".git", "config"]) = conf := by
    unfold readConfigFile
    rw [hcfg]
    rfl
  have hrun : GitRepository.init fs p false =
      repo_validate fs p (pyJoin p [".git"]) conf false := by
    unfold GitRepository.init repo_file repo_dir
    simp only [FS.isDir, hdir, Bool.or_false, Bool.not_true, List.dropLast,
      repo_path, pyJoin_nil, hjoin, hexists, hread, if_true, Bool.false_or]
    rfl
  constructor
  · intro hv
    subst hv
    rw [hrun]
    unfold repo_validate
    simp [hget, pyInt] at hint ⊢
    simp [hint]
  · intro hv
    rw [hrun]
    unfold repo_validate
    simp [hget, hint, hv]

/-- A configuration declaring format version 1. -/
def cfgV1 : GitConfig := ⟨[("core", [("repositoryformatversion", "1")])]⟩

/-- A filesystem holding a valid version-0 repository at `/a`. -/
def fsRepoOk : FS :=
  ⟨FSTree.dir [("a", FSTree.dir [(".git", FSTree.dir
    [("config", FSTree.file (FileData.iniConf repo_default_config))])])], []⟩

/-- A filesystem holding a version-1 repository at `/a`. -/
def fsRepoV1 : FS :=
  ⟨FSTree.dir [("a", FSTree.dir [(".git", FSTree.dir
    [("config", FSTree.file (FileData.iniConf cfgV1))])])], []⟩

/-- The absolute path `/a`. -/
def pA : PyPath := ⟨true, ["a"]⟩

/-- Witness for C3: version `0` opens successfully, version `1` is
rejected with `unsupportedFormatVersion`. -/
theorem open_formatversion_validation_witness :
    GitRepository.init fsRepoOk pA false =
      Res.ok ⟨pA, pyJoin pA [".git"], repo_default_config⟩ fsRepoOk ∧
    GitRepository.init fsRepoV1 pA false =
      Res.err RepoError.unsupportedFormatVersion fsRepoV1 :=
  ⟨(open_formatversion_validation fsRepoOk pA repo_default_config
      [("config", FSTree.file (FileData.iniConf repo_default_config))] "0" 0
      rfl rfl rfl (by decide)).1 rfl,
   (open_formatversion_validation fsRepoV1 pA cfgV1
      [("config", FSTree.file (FileData.iniConf cfgV1))] "1" 1
      rfl rfl rfl (by decide)).2 (by decide)⟩

/-- A filesystem where `/r/.git` exists as a regular file. -/
def fsGitFile : FS :=
  ⟨FSTree.dir [("r", FSTree.dir [(".git", FSTree.file (FileData.text "x"))])], []⟩

/-- The absolute path `/r`. -/
def pR : PyPath := ⟨true, ["r"]⟩

/-- Counterexample to C6 as stated: with `/r/.git` a regular file, even
`force=true` does not return a handle — the call from `repo_file` to `repo_dir`
hits the file and raises `Not a directory`. -/
theorem open_force_fails_on_file_gitdir :
    GitRepository.init fsGitFile pR true = Res.err RepoError.notADirectory fsGitFile :=
  rfl

/-- Claim C6 as amended: `open(path, force=true)` returns a provisional
handle for every filesystem state and path, except when `path/.git`
exists as a regular file, in which case it raises `Not a directory`. -/
theorem open_force_succeeds_unless_gitdir_file (fs : FS) (p : PyPath)
    (h : ∀ d, fs.lookupPath (pyJoin p [".git"]) ≠ some (FSTree.file d)) :
    (GitRepository.init fs p true).isOk = true := by
  unfold GitRepository.init repo_file repo_dir
  simp only [Bool.true_or, Bool.not_true, List.dropLast, repo_path, pyJoin_nil,
    Bool.false_eq_true, if_false]
  cases hfs : fs.lookupPath (pyJoin p [".git"]) with
  | none => simp [repo_validate, Res.isOk]
  | some t =>
    cases t with
    | file d => exact absurd hfs (h d)
    | dir es =>
      cases hex : fs.existsPath (pyJoin (pyJoin p [".git"]) ["config"]) <;>
        simp [hex, repo_validate, Res.isOk]

/-- Witness for the amended C6 on the empty filesystem. -/
theorem open_force_succeeds_witness :
    (∀ d, fsEmpty.lookupPath (pyJoin pTmpR1 [".git"]) ≠ some (FSTree.file d)) ∧
    (GitRepository.init fsEmpty pTmpR1 true).isOk = true :=
  ⟨(fun _ h => nomatch h),
   open_force_succeeds_unless_gitdir_file fsEmpty pTmpR1 (fun _ h => nomatch h)⟩

/-- Any handle `repo_validate` returns carries exactly the worktree and
gitdir paths it was given. -/
theorem repo_validate_ok_shape (fs : FS) (w g : PyPath) (c : GitConfig) (b : Bool)
    (r : GitRepository) (f : FS)
    (h : repo_validate fs w g c b = Res.ok r f) :
    r.worktree = w ∧ r.gitdir = g := by
  unfold repo_validate at h
  split at h
  · injection h with h1 h2
    subst h1
    exact ⟨rfl, rfl⟩
  · split at h
    · exact Res.noConfusion h
    · split at h
      · exact Res.noConfusion h
      · split at h
        · exact Res.noConfusion h
        · injection h with h1 h2
          subst h1
          exact ⟨rfl, rfl⟩

/-- Claim C9 as amended: a handle returned by `open` has `worktree` equal
to the given path verbatim and `gitdir` equal to the path joined with
`.git`; no absolutization is performed, so both are absolute exactly when
the path given by the caller was absolute. -/
theorem open_paths_verbatim (fs : FS) (p : PyPath) (b : Bool) (r : GitRepository) (f : FS)
    (h : GitRepository.init fs p b = Res.ok r f) :
    r.worktree = p ∧ r.gitdir = pyJoin p [".git"] ∧
    r.worktree.absolute = p.absolute ∧ r.gitdir.absolute = p.absolute := by
  unfold GitRepository.init at h
  repeat' split at h
  all_goals first
    | exact Res.noConfusion h
    | (obtain ⟨h1, h2⟩ := repo_validate_ok_shape _ _ _ _ _ _ _ h
       rw [h1, h2]
       exact ⟨rfl, rfl, rfl, rfl⟩)

/-- A filesystem holding a valid repository at the relative path `r`
(current working directory at the root). -/
def fsRel : FS :=
  ⟨FSTree.dir [("r", FSTree.dir [(".git", FSTree.dir
    [("config", FSTree.file (FileData.iniConf repo_default_config))])])], []⟩

/-- The relative path `r`. -/
def pRel : PyPath := ⟨false, ["r"]⟩

/-- Counterexample to C9 as stated: opening the valid repository at the
relative path `r` (no `force`) succeeds and returns a handle whose
`worktree` and `gitdir` are the relative input verbatim — not absolute
paths. -/
theorem open_relative_not_absolute :
    GitRepository.init fsRel pRel false =
      Res.ok ⟨pRel, pyJoin pRel [".git"], repo_default_config⟩ fsRel ∧
    pRel.absolute = false ∧ (pyJoin pRel [".git"]).absolute = false :=
  ⟨rfl, rfl, rfl⟩

/-- Witness for the amended C9 at the concrete valid repository `/a`. -/
theorem open_paths_verbatim_witness :
    GitRepository.init fsRepoOk pA false =
      Res.ok ⟨pA, pyJoin pA [".git"], repo_default_config⟩ fsRepoOk ∧
    (⟨pA, pyJoin pA [".git"], repo_default_config⟩ : GitRepository).worktree = pA ∧
    (⟨pA, pyJoin pA [".git"], repo_default_config⟩ : GitRepository).gitdir = pyJoin pA [".git"] :=
  ⟨rfl,
   (open_paths_verbatim fsRepoOk pA false ⟨pA, pyJoin pA [".git"], repo_default_config⟩
      fsRepoOk rfl).1,
   (open_paths_verbatim fsRepoOk pA false ⟨pA, pyJoin pA [".git"], repo_default_config⟩
      fsRepoOk rfl).2.1⟩

/-- Claim C8: `repo_path` is pure — it takes no filesystem state at all,
so it performs no I/O and cannot observe whether the result exists — and
it returns exactly the control directory joined with the components in
order, keeping the absoluteness of the control directory. -/
theorem repo_path_is_join (repo : GitRepository) (comps : List String) :
    repo_path repo comps = pyJoin repo.gitdir comps ∧
    (repo_path repo comps).comps = repo.gitdir.comps ++ comps ∧
    (repo_path repo comps).absolute = repo.gitdir.absolute :=
  ⟨rfl, rfl, rfl⟩

/-! ### Association-list and makedirs lemmas -/

/-- Updating an absent name leaves the entry list unchanged. -/
theorem updateEntry_of_assoc_none {α : Type} (es : List (String × α)) (n : String) (y : α)
    (h : assoc es n = none) : updateEntry es n y = es := by
  induction es with
  | nil => rfl
  | cons kv rest ih =>
    obtain ⟨k, v⟩ := kv
    by_cases hk : k = n
    · simp [assoc, hk] at h
    · simp [updateEntry, hk]
      exact ih (by simpa [assoc, hk] using h)

/-- After updating a present name, looking it up yields the new value. -/
theorem assoc_updateEntry_self {α : Type} (es : List (String × α)) (n : String) (x y : α)
    (h : assoc es n = some x) : assoc (updateEntry es n y) n = some y := by
  induction es with
  | nil => simp [assoc] at h
  | cons kv rest ih =>
    obtain ⟨k, v⟩ := kv
    by_cases hk : k = n
    · simp [updateEntry, assoc, hk]
    · simp [assoc, hk] at h
      simp [updateEntry, assoc, hk]
      exact ih h

/-- Updating one name does not change lookups of another. -/
theorem assoc_updateEntry_ne {α : Type} (es : List (String × α)) (n m : String) (y : α)
    (h : m ≠ n) : assoc (updateEntry es n y) m = assoc es m := by
  induction es with
  | nil => rfl
  | cons kv rest ih =>
    obtain ⟨k, v⟩ := kv
    by_cases hk : k = n
    · subst hk
      simp [updateEntry, assoc, Ne.symm h]
    · by_cases hm : k = m <;> simp [updateEntry, assoc, hk, hm, h, ih]

/-- Lookup in an appended entry list falls through to the tail when the
head has no binding. -/
theorem assoc_append {α : Type} (es l2 : List (String × α)) (m : String) :
    assoc (es ++ l2) m =
      match assoc es m with
      | some v => some v
      | none => assoc l2 m := by
  induction es with
  | nil => simp [assoc]
  | cons kv rest ih =>
    obtain ⟨k, v⟩ := kv
    by_cases hk : k = m <;> simp [assoc, hk, ih]

/-- A fresh directory chain contains its own full path, ending in an empty
directory. -/
theorem lookupT_freshDirs_self (p : List String) :
    lookupT (freshDirs p) p = some (FSTree.dir []) := by
  induction p with
  | nil => rfl
  | cons n rest ih => simp [freshDirs, lookupT, assoc, ih]

/-- After a successful `makedirs`, the full path exists as a directory. -/
theorem makedirs_self (t : FSTree) (p : List String) (t' : FSTree)
    (h : makedirs t p = some t') : ∃ es, lookupT t' p = some (FSTree.dir es) := by
  induction p generalizing t t' with
  | nil =>
    cases t with
    | file d => simp [makedirs] at h
    | dir es =>
      simp [makedirs] at h
      subst h
      exact ⟨es, rfl⟩
  | cons n rest ih =>
    cases t with
    | file d => simp [makedirs] at h
    | dir es =>
      simp only [makedirs] at h
      cases hs : assoc es n with
      | some sub =>
        rw [hs] at h
        dsimp only at h
        cases hm : makedirs sub rest with
        | none => rw [hm] at h; simp at h
        | some sub' =>
          rw [hm] at h
          simp at h
          subst h
          obtain ⟨es2, h2⟩ := ih sub sub' hm
          exact ⟨es2, by simp [lookupT, assoc_updateEntry_self es n sub sub' hs, h2]⟩
      | none =>
        rw [hs] at h
        dsimp only at h
        simp at h
        subst h
        refine ⟨[], ?_⟩
        simp [lookupT, assoc_append, hs, assoc, lookupT_freshDirs_self]

/-- Claim C7: `repo_dir` with `mkdir=true` is idempotent — when a call
returns a path and a filesystem state, calling it again on that state
returns the same path and leaves the state unchanged (the second call
finds the directory the first one ensured). -/
theorem repo_dir_mkdir_idempotent (fs : FS) (repo : GitRepository) (comps : List String)
    (q : PyPath) (fs' : FS)
    (h : repo_dir fs repo comps true = Res.ok (some q) fs') :
    repo_dir fs' repo comps true = Res.ok (some q) fs' := by
  unfold repo_dir at h ⊢
  cases hl : fs.lookupPath (repo_path repo comps) with
  | some t =>
    rw [hl] at h
    cases t with
    | file d => exact Res.noConfusion h
    | dir es =>
      dsimp only at h
      injection h with h1 h2
      injection h1 with h1
      subst h1
      subst h2
      rw [hl]
  | none =>
    rw [hl] at h
    dsimp only at h
    rw [if_pos rfl] at h
    cases hm : fs.makedirsP (repo_path repo comps) with
    | none => rw [hm] at h; exact Res.noConfusion h
    | some fs2 =>
      rw [hm] at h
      dsimp only at h
      injection h with h1 h2
      injection h1 with h1
      subst h1
      subst h2
      unfold FS.makedirsP at hm
      cases hmk : makedirs fs.root (fs.resolve (repo_path repo comps)) with
      | none => rw [hmk] at hm; exact Option.noConfusion hm
      | some t2 =>
        rw [hmk] at hm
        dsimp only at hm
        injection hm with hm
        obtain ⟨es2, hes⟩ := makedirs_self _ _ _ hmk
        subst hm
        have hlp : FS.lookupPath ⟨t2, fs.cwd⟩ (repo_path repo comps) =
            some (FSTree.dir es2) := by
          unfold FS.lookupPath
          have hrs : FS.resolve ⟨t2, fs.cwd⟩ (repo_path repo comps) =
              fs.resolve (repo_path repo comps) := rfl
          rw [hrs]
          exact hes
        rw [hlp]

/-- The provisional (`force=true`) handle for `/tmp/r1`. -/
def repoW : GitRepository := ⟨pTmpR1, pyJoin pTmpR1 [".git"], GitConfig.empty⟩

/-- The filesystem left behind by one
`repo_dir(repoW, "refs", "heads", mkdir=true)` call on the empty
filesystem. -/
def fsW : FS := ⟨freshDirs ["tmp", "r1", ".git", "refs", "heads"], []⟩

/-- Witness for C7: the concrete `refs/heads` call of the spec, executed
twice from the empty filesystem. -/
theorem repo_dir_mkdir_idempotent_witness :
    repo_dir fsEmpty repoW ["refs", "heads"] true =
      Res.ok (some (pyJoin (pyJoin pTmpR1 [".git"]) ["refs", "heads"])) fsW ∧
    repo_dir fsW repoW ["refs", "heads"] true =
      Res.ok (some (pyJoin (pyJoin pTmpR1 [".git"]) ["refs", "heads"])) fsW :=
  ⟨rfl, repo_dir_mkdir_idempotent fsEmpty repoW ["refs", "heads"] _ fsW rfl⟩

/-- Opening with `force=true` when `path/.git` is a directory always
returns, unchanged, the given filesystem together with a handle carrying
the verbatim paths (the loaded configuration depends on whether a config
file is present). -/
theorem init_force_on_dir (fs : FS) (p : PyPath) (es : List (String × FSTree))
    (hgit : fs.lookupPath (pyJoin p [".git"]) = some (FSTree.dir es)) :
    ∃ c, GitRepository.init fs p true = Res.ok ⟨p, pyJoin p [".git"], c⟩ fs := by
  cases hex : fs.existsPath (pyJoin (pyJoin p [".git"]) ["config"]) with
  | true =>
    refine ⟨readConfigFile fs (pyJoin (pyJoin p [".git"]) ["config"]), ?_⟩
    unfold GitRepository.init repo_file repo_dir
    simp only [Bool.true_or, Bool.not_true, Bool.false_eq_true, if_false,
      List.dropLast, repo_path, pyJoin_nil, hgit, hex, repo_validate, if_true]
  | false =>
    refine ⟨GitConfig.empty, ?_⟩
    unfold GitRepository.init repo_file repo_dir
    simp only [Bool.true_or, Bool.not_true, Bool.false_eq_true, if_false,
      List.dropLast, repo_path, pyJoin_nil, hgit, hex, repo_validate, if_true]

/-- Claim C5: whenever `path/.git` exists and is a non-empty directory,
`repo_create` fails with `TargetNotEmpty` and the filesystem it leaves
behind is exactly the one it was given — no entry is created, deleted, or
modified before the error is raised. -/
theorem create_target_not_empty (fs : FS) (p : PyPath) (es : List (String × FSTree))
    (hgit : fs.lookupPath (pyJoin p [".git"]) = some (FSTree.dir es))
    (hne : es ≠ []) :
    repo_create fs p = Res.err RepoError.targetNotEmpty fs := by
  obtain ⟨c, hinit⟩ := init_force_on_dir fs p es hgit
  have hbind := lookupPath_pyJoin fs p [".git"]
  rw [hgit] at hbind
  have hwt : ∃ es0, fs.lookupPath p = some (FSTree.dir es0) := by
    cases hwp : fs.lookupPath p with
    | none => rw [hwp] at hbind; exact Option.noConfusion hbind
    | some t0 =>
      cases t0 with
      | file d =>
        rw [hwp] at hbind
        simp [lookupT] at hbind
      | dir es0 => exact ⟨es0, rfl⟩
  obtain ⟨es0, hwp⟩ := hwt
  have hexw : fs.existsPath p = true := by
    unfold FS.existsPath
    rw [hwp]
    rfl
  have hdirw : fs.isDir p = true := by
    unfold FS.isDir
    rw [hwp]
  have hexg : fs.existsPath (pyJoin p [".git"]) = true := by
    unfold FS.existsPath
    rw [hgit]
    rfl
  have hlist : (fs.listdir (pyJoin p [".git"])).isEmpty = false := by
    unfold FS.listdir
    rw [hgit]
    cases es with
    | nil => exact absurd rfl hne
    | cons e es' => rfl
  unfold repo_create
  rw [hinit]
  unfold repo_create_check
  dsimp only
  rw [hexw, hdirw, hexg, hlist]
  rfl

/-- Witness for C5: `/a/.git` contains a config file, so it is non-empty
and `repo_create` is rejected without touching the filesystem. -/
theorem create_target_not_empty_witness :
    fsRepoOk.lookupPath (pyJoin pA [".git"]) =
      some (FSTree.dir [("config", FSTree.file (FileData.iniConf repo_default_config))]) ∧
    repo_create fsRepoOk pA = Res.err RepoError.targetNotEmpty fsRepoOk :=
  ⟨rfl, create_target_not_empty fsRepoOk pA
    [("config", FSTree.file (FileData.iniConf repo_default_config))] rfl (by simp)⟩

/-! ### Segment-order lemmas for frame reasoning -/

/-- Every list is led by the list itself followed by anything. -/
theorem leadOf_append_self (a s : List String) : leadOf a (a ++ s) = true := by
  induction a with
  | nil => rfl
  | cons x xs ih => simp [leadOf, ih]

/-- A lead of `a` is a lead of `a ++ s`. -/
theorem leadOf_of_leadOf_append (q a s : List String) (h : leadOf q a = true) :
    leadOf q (a ++ s) = true := by
  induction q generalizing a with
  | nil => rfl
  | cons x xs ih =>
    cases a with
    | nil => simp [leadOf] at h
    | cons y ys =>
      by_cases hx : x = y
      · subst hx
        simp only [leadOf, if_pos rfl] at h ⊢
        exact ih ys h
      · simp [leadOf, hx] at h

/-- Being a lead is invariant under removing a common front segment. -/
theorem leadOf_append_left (a c d : List String) :
    leadOf (a ++ c) (a ++ d) = leadOf c d := by
  induction a with
  | nil => rfl
  | cons x xs ih => simp [leadOf, ih]

/-- A lead is literally a front segment. -/
theorem exists_of_leadOf (a b : List String) (h : leadOf a b = true) :
    ∃ s, b = a ++ s := by
  induction a generalizing b with
  | nil => exact ⟨b, rfl⟩
  | cons x xs ih =>
    cases b with
    | nil => simp [leadOf] at h
    | cons y ys =>
      by_cases hx : x = y
      · subst hx
        simp only [leadOf, if_pos rfl] at h
        obtain ⟨s, hs⟩ := ih ys h
        exact ⟨s, by rw [hs]; rfl⟩
      · simp [leadOf, hx] at h

/-! ### Subtree-replacement lemmas -/

/-- Updating the same name twice keeps only the second value. -/
theorem updateEntry_updateEntry {α : Type} (es : List (String × α)) (n : String) (x y : α) :
    updateEntry (updateEntry es n x) n y = updateEntry es n y := by
  induction es with
  | nil => rfl
  | cons kv rest ih =>
    obtain ⟨k, v⟩ := kv
    by_cases hk : k = n <;> simp [updateEntry, hk, ih]

/-- Appending a fresh binding and then updating it in place rewrites just
that binding. -/
theorem updateEntry_append_right {α : Type} (es : List (String × α)) (n : String) (x y : α)
    (h : assoc es n = none) : updateEntry (es ++ [(n, x)]) n y = es ++ [(n, y)] := by
  induction es with
  | nil => simp [updateEntry]
  | cons kv rest ih =>
    obtain ⟨k, v⟩ := kv
    by_cases hk : k = n
    · simp [assoc, hk] at h
    · simp [assoc, hk] at h
      simp [updateEntry, hk, ih h]

/-- Replacing a subtree does not affect lookups on paths that diverge from
the replacement point. -/
theorem lookupT_updateSubtree_divergent (rp : List String) (t new : FSTree) (q : List String)
    (h1 : leadOf rp q = false) (h2 : leadOf q rp = false) :
    lookupT (updateSubtree t rp new) q = lookupT t q := by
  induction rp generalizing t q with
  | nil => simp [leadOf] at h1
  | cons n rp' ih =>
    cases q with
    | nil => simp [leadOf] at h2
    | cons m q' =>
      cases t with
      | file d => rfl
      | dir es =>
        by_cases hm : n = m
        · subst hm
          simp only [leadOf, if_pos rfl] at h1 h2
          simp only [updateSubtree]
          cases hs : assoc es n with
          | none => rfl
          | some sub =>
            simp only [lookupT, assoc_updateEntry_self es n sub _ hs, hs]
            exact ih sub q' h1 h2
        · simp only [updateSubtree]
          cases hs : assoc es n with
          | none => rfl
          | some sub =>
            simp only [lookupT,
              assoc_updateEntry_ne es n m (updateSubtree sub rp' new) (fun hc => hm hc.symm)]

/-- Looking up below the replacement point reads from the replacement. -/
theorem lookupT_updateSubtree_append (rp : List String) (t new sub : FSTree) (q : List String)
    (h : lookupT t rp = some sub) :
    lookupT (updateSubtree t rp new) (rp ++ q) = lookupT new q := by
  induction rp generalizing t with
  | nil => simp [updateSubtree]
  | cons n rp' ih =>
    cases t with
    | file d => simp [lookupT] at h
    | dir es =>
      simp only [lookupT] at h
      cases hs : assoc es n with
      | none => rw [hs] at h; exact Option.noConfusion h
      | some sub1 =>
        rw [hs] at h
        simp only [updateSubtree, hs, List.cons_append, lookupT,
          assoc_updateEntry_self es n sub1 _ hs]
        exact ih sub1 h

/-- Replacing at the same present point twice keeps only the second
replacement. -/
theorem updateSubtree_compose (rp : List String) (t a b sub : FSTree)
    (h : lookupT t rp = some sub) :
    updateSubtree (updateSubtree t rp a) rp b = updateSubtree t rp b := by
  induction rp generalizing t with
  | nil => simp [updateSubtree]
  | cons n rp' ih =>
    cases t with
    | file d => simp [lookupT] at h
    | dir es =>
      simp only [lookupT] at h
      cases hs : assoc es n with
      | none => rw [hs] at h; exact Option.noConfusion h
      | some sub1 =>
        rw [hs] at h
        simp only [updateSubtree, hs, assoc_updateEntry_self es n sub1 _ hs,
          updateEntry_updateEntry, ih sub1 h]

/-- `makedirs` below an existing node factors through that node, replacing
its subtree. -/
theorem makedirs_under (rp q : List String) (t sub : FSTree)
    (h : lookupT t rp = some sub) :
    makedirs t (rp ++ q) = Option.map (updateSubtree t rp) (makedirs sub q) := by
  induction rp generalizing t with
  | nil =>
    simp only [lookupT] at h
    injection h with h
    subst h
    cases hm : makedirs t q <;> simp [updateSubtree, hm]
  | cons n rp' ih =>
    cases t with
    | file d => simp [lookupT] at h
    | dir es =>
      simp only [lookupT] at h
      cases hs : assoc es n with
      | none => rw [hs] at h; exact Option.noConfusion h
      | some sub1 =>
        rw [hs] at h
        have hmain : makedirs (FSTree.dir es) ((n :: rp') ++ q) =
            match makedirs sub1 (rp' ++ q) with
            | some sub2 => some (FSTree.dir (updateEntry es n sub2))
            | none => none := by
          simp only [List.cons_append, makedirs, hs]
          rfl
        rw [hmain, ih sub1 h]
        cases hm : makedirs sub q with
        | none => rfl
        | some r => simp [updateSubtree, hs]

/-- `writeFile` below an existing node factors through that node,
replacing its subtree (the written path is nonempty below the node). -/
theorem writeFile_under (rp : List String) (x : String) (q : List String) (d : FileData)
    (t sub : FSTree) (h : lookupT t rp = some sub) :
    writeFile t (rp ++ x :: q) d = Option.map (updateSubtree t rp) (writeFile sub (x :: q) d) := by
  induction rp generalizing t with
  | nil =>
    simp only [lookupT] at h
    injection h with h
    subst h
    cases hm : writeFile t (x :: q) d <;> simp [updateSubtree, hm]
  | cons n rp' ih =>
    cases t with
    | file d2 => simp [lookupT] at h
    | dir es =>
      simp only [lookupT] at h
      cases hs : assoc es n with
      | none => rw [hs] at h; exact Option.noConfusion h
      | some sub1 =>
        rw [hs] at h
        have hmain : writeFile (FSTree.dir es) ((n :: rp') ++ x :: q) d =
            match writeFile sub1 (rp' ++ x :: q) d with
            | some sub2 => some (FSTree.dir (updateEntry es n sub2))
            | none => none := by
          cases hL : rp' ++ x :: q with
          | nil => exact absurd hL (by simp)
          | cons z zs => simp only [List.cons_append, hL, writeFile, hs]
        rw [hmain, ih sub1 h]
        cases hm : writeFile sub (x :: q) d with
        | none => rfl
        | some r => simp [updateSubtree, hs]

/-- The shape of every filesystem root reached during a bootstrap on a
pre-existing worktree directory: the original root where the worktree has its
entry list extended by a `.git` entry holding the partially built
skeleton `T`. -/
def gitStateRoot (root : FSTree) (rp : List String) (es : List (String × FSTree))
    (T : FSTree) : FSTree :=
  updateSubtree root rp (FSTree.dir (es ++ [(".git", T)]))

/-- The worktree node of a bootstrap state, as seen from the root. -/
theorem gitState_self (root : FSTree) (rp : List String) (es : List (String × FSTree))
    (T : FSTree) (hrp : lookupT root rp = some (FSTree.dir es)) :
    lookupT (gitStateRoot root rp es T) rp = some (FSTree.dir (es ++ [(".git", T)])) := by
  have h := lookupT_updateSubtree_append rp root
    (FSTree.dir (es ++ [(".git", T)])) (FSTree.dir es) [] hrp
  rw [List.append_nil] at h
  exact h

/-- The `.git` entry of a bootstrap state holds exactly the skeleton. -/
theorem gitState_lookup (root : FSTree) (rp : List String) (es : List (String × FSTree))
    (T : FSTree) (suffix : List String)
    (hrp : lookupT root rp = some (FSTree.dir es)) (hnog : assoc es ".git" = none) :
    lookupT (gitStateRoot root rp es T) (rp ++ ".git" :: suffix) = lookupT T suffix := by
  unfold gitStateRoot
  rw [lookupT_updateSubtree_append rp root _ (FSTree.dir es) (".git" :: suffix) hrp]
  simp [lookupT, assoc_append, hnog, assoc]

/-- Growing the skeleton by a `makedirs` below `.git` yields the bootstrap
state with the grown skeleton. -/
theorem gitState_makedirs (root : FSTree) (rp : List String) (es : List (String × FSTree))
    (T T' : FSTree) (suffix : List String)
    (hrp : lookupT root rp = some (FSTree.dir es)) (hnog : assoc es ".git" = none)
    (hT : makedirs T suffix = some T') :
    makedirs (gitStateRoot root rp es T) (rp ++ ".git" :: suffix) =
      some (gitStateRoot root rp es T') := by
  rw [makedirs_under rp (".git" :: suffix) _ _ (gitState_self root rp es T hrp)]
  have ha : assoc (es ++ [(".git", T)]) ".git" = some T := by
    rw [assoc_append, hnog]
    simp [assoc]
  have hstep : makedirs (FSTree.dir (es ++ [(".git", T)])) (".git" :: suffix) =
      some (FSTree.dir (es ++ [(".git", T')])) := by
    simp only [makedirs, ha, hT, updateEntry_append_right es ".git" T T' hnog]
  rw [hstep]
  unfold gitStateRoot
  simp only [Option.map]
  rw [updateSubtree_compose rp root _ _ (FSTree.dir es) hrp]

/-- Writing a file below `.git` yields the bootstrap state with the
written skeleton. -/
theorem gitState_write (root : FSTree) (rp : List String) (es : List (String × FSTree))
    (T T' : FSTree) (x : String) (suffix : List String) (d : FileData)
    (hrp : lookupT root rp = some (FSTree.dir es)) (hnog : assoc es ".git" = none)
    (hT : writeFile T (x :: suffix) d = some T') :
    writeFile (gitStateRoot root rp es T) (rp ++ ".git" :: x :: suffix) d =
      some (gitStateRoot root rp es T') := by
  rw [writeFile_under rp ".git" (x :: suffix) d _ _ (gitState_self root rp es T hrp)]
  have ha : assoc (es ++ [(".git", T)]) ".git" = some T := by
    rw [assoc_append, hnog]
    simp [assoc]
  have hstep : writeFile (FSTree.dir (es ++ [(".git", T)])) (".git" :: x :: suffix) d =
      some (FSTree.dir (es ++ [(".git", T')])) := by
    simp only [writeFile, ha, hT, updateEntry_append_right es ".git" T T' hnog]
  rw [hstep]
  unfold gitStateRoot
  simp only [Option.map]
  rw [updateSubtree_compose rp root _ _ (FSTree.dir es) hrp]

/-- The very first `makedirs` of the bootstrap creates the `.git` entry
and enters the bootstrap-state shape. -/
theorem gitState_first (root : FSTree) (rp : List String) (es : List (String × FSTree))
    (hrp : lookupT root rp = some (FSTree.dir es)) (hnog : assoc es ".git" = none) :
    makedirs root (rp ++ [".git", "branches"]) =
      some (gitStateRoot root rp es (freshDirs ["branches"])) := by
  rw [makedirs_under rp [".git", "branches"] root (FSTree.dir es) hrp]
  have hstep : makedirs (FSTree.dir es) [".git", "branches"] =
      some (FSTree.dir (es ++ [(".git", freshDirs ["branches"])])) := by
    simp only [makedirs, hnog]
  rw [hstep]
  rfl

/-- Nothing outside the `.git` entry of the worktree differs between a
bootstrap state and the original root. -/
theorem gitState_frame (root : FSTree) (rp : List String) (es : List (String × FSTree))
    (T : FSTree) (q : List String)
    (hrp : lookupT root rp = some (FSTree.dir es))
    (h1 : leadOf (rp ++ [".git"]) q = false) (h2 : leadOf q (rp ++ [".git"]) = false) :
    lookupT (gitStateRoot root rp es T) q = lookupT root q := by
  cases hq1 : leadOf rp q with
  | false =>
    cases hq2 : leadOf q rp with
    | false => exact lookupT_updateSubtree_divergent rp root _ q hq1 hq2
    | true => exact absurd (leadOf_of_leadOf_append q rp [".git"] hq2) (by simp [h2])
  | true =>
    obtain ⟨s, hs⟩ := exists_of_leadOf rp q hq1
    subst hs
    cases s with
    | nil =>
      rw [List.append_nil] at h2
      exact absurd (leadOf_append_self rp [".git"]) (by simp [h2])
    | cons x s' =>
      have hx : ".git" ≠ x := by
        intro hc
        subst hc
        have hl := leadOf_append_left rp [".git"] (".git" :: s')
        rw [h1] at hl
        simp [leadOf] at hl
      unfold gitStateRoot
      rw [lookupT_updateSubtree_append rp root _ (FSTree.dir es) (x :: s') hrp]
      rw [lookupT_append, hrp]
      simp only [Option.bind, lookupT]
      rw [assoc_append]
      cases hax : assoc es x with
      | some t1 => rfl
      | none => simp [assoc, hx]

/-- Skeleton under `.git` after `repo_dir(repo, "branches", mkdir=True)`. -/
def skel1 : FSTree := freshDirs ["branches"]

/-- Skeleton after `repo_dir(repo, "objects", mkdir=True)`. -/
def skel2 : FSTree :=
  FSTree.dir [("branches", FSTree.dir []), ("objects", FSTree.dir [])]

/-- Skeleton after `repo_dir(repo, "refs", "tags", mkdir=True)`. -/
def skel3 : FSTree :=
  FSTree.dir [("branches", FSTree.dir []), ("objects", FSTree.dir []),
    ("refs", FSTree.dir [("tags", FSTree.dir [])])]

/-- Skeleton after `repo_dir(repo, "refs", "heads", mkdir=True)`. -/
def skel4 : FSTree :=
  FSTree.dir [("branches", FSTree.dir []), ("objects", FSTree.dir []),
    ("refs", FSTree.dir [("tags", FSTree.dir []), ("heads", FSTree.dir [])])]

/-- Skeleton after writing `description`. -/
def skel5 : FSTree :=
  FSTree.dir [("branches", FSTree.dir []), ("objects", FSTree.dir []),
    ("refs", FSTree.dir [("tags", FSTree.dir []), ("heads", FSTree.dir [])]),
    ("description", FSTree.file (FileData.text descriptionText))]

/-- Skeleton after the first `HEAD` write. -/
def skel6 : FSTree :=
  FSTree.dir [("branches", FSTree.dir []), ("objects", FSTree.dir []),
    ("refs", FSTree.dir [("tags", FSTree.dir []), ("heads", FSTree.dir [])]),
    ("description", FSTree.file (FileData.text descriptionText)),
    ("HEAD", FSTree.file (FileData.text headText))]

/-- Skeleton after the second `HEAD` write (the config-to-HEAD
overwrite). -/
def skel7 : FSTree :=
  FSTree.dir [("branches", FSTree.dir []), ("objects", FSTree.dir []),
    ("refs", FSTree.dir [("tags", FSTree.dir []), ("heads", FSTree.dir [])]),
    ("description", FSTree.file (FileData.text descriptionText)),
    ("HEAD", FSTree.file (FileData.iniConf repo_default_config))]

/-- With no `.git` present at all, opening with `force=true` succeeds with
an empty configuration and the filesystem untouched. -/
theorem init_force_no_gitdir (fs : FS) (p : PyPath)
    (hng : fs.lookupPath (pyJoin p [".git"]) = none) :
    GitRepository.init fs p true = Res.ok ⟨p, pyJoin p [".git"], GitConfig.empty⟩ fs := by
  have hd : fs.isDir (pyJoin p [".git"]) = false := by
    unfold FS.isDir
    rw [hng]
  unfold GitRepository.init repo_file repo_dir
  simp only [Bool.true_or, Bool.not_true, Bool.false_eq_true, if_false, List.dropLast,
    repo_path, pyJoin_nil, hng, repo_validate, if_true]

/-- Claim C10 (frame property): on a pre-existing directory with no
`.git` entry, `repo_create` completes, keeps the working directory, and
changes nothing whose path does not lie under `path/.git` — every lookup
outside that subtree reads exactly what it read before. -/
theorem create_frame_outside_gitdir (fs : FS) (p : PyPath) (es : List (String × FSTree))
    (hrp : fs.lookupPath p = some (FSTree.dir es))
    (hnog : assoc es ".git" = none) :
    (repo_create fs p).isOk = true ∧
    (repo_create fs p).fs.cwd = fs.cwd ∧
    ∀ q, leadOf (fs.resolve p ++ [".git"]) q = false →
      leadOf q (fs.resolve p ++ [".git"]) = false →
      lookupT (repo_create fs p).fs.root q = lookupT fs.root q := by
  have hrp' : lookupT fs.root (fs.resolve p) = some (FSTree.dir es) := hrp
  have hres : ∀ comps : List String,
      fs.resolve (pyJoin (pyJoin p [".git"]) comps) = fs.resolve p ++ ".git" :: comps := by
    intro comps
    rw [resolve_pyJoin, resolve_pyJoin]
    simp
  have hng : fs.lookupPath (pyJoin p [".git"]) = none := by
    rw [lookupPath_pyJoin, hrp]
    simp [lookupT, hnog]
  have hinit : GitRepository.init fs p true =
      Res.ok ⟨p, pyJoin p [".git"], GitConfig.empty⟩ fs := init_force_no_gitdir fs p hng
  have hexw : fs.existsPath p = true := by
    unfold FS.existsPath
    rw [hrp]
    rfl
  have hdirw : fs.isDir p = true := by
    unfold FS.isDir
    rw [hrp]
  have hexg : fs.existsPath (pyJoin p [".git"]) = false := by
    unfold FS.existsPath
    rw [hng]
    rfl
  have hcheck : repo_create_check fs ⟨p, pyJoin p [".git"], GitConfig.empty⟩ =
      Res.ok () fs := by
    unfold repo_create_check
    dsimp only
    rw [hexw, hdirw, hexg]
    rfl
  have hLstep : ∀ (T : FSTree) (comps : List String) (r : Option FSTree),
      lookupT T comps = r →
      FS.lookupPath ⟨gitStateRoot fs.root (fs.resolve p) es T, fs.cwd⟩
        (pyJoin (pyJoin p [".git"]) comps) = r := by
    intro T comps r hr
    show lookupT (gitStateRoot fs.root (fs.resolve p) es T)
      (fs.resolve (pyJoin (pyJoin p [".git"]) comps)) = r
    rw [hres]
    rw [gitState_lookup fs.root (fs.resolve p) es T comps hrp' hnog]
    exact hr
  have hMstep : ∀ (T T' : FSTree) (comps : List String), makedirs T comps = some T' →
      FS.makedirsP ⟨gitStateRoot fs.root (fs.resolve p) es T, fs.cwd⟩
        (pyJoin (pyJoin p [".git"]) comps) =
      some ⟨gitStateRoot fs.root (fs.resolve p) es T', fs.cwd⟩ := by
    intro T T' comps hT
    unfold FS.makedirsP
    dsimp only
    have hr : FS.resolve (⟨gitStateRoot fs.root (fs.resolve p) es T, fs.cwd⟩ : FS)
        (pyJoin (pyJoin p [".git"]) comps) = fs.resolve p ++ ".git" :: comps := hres comps
    rw [hr, gitState_makedirs fs.root (fs.resolve p) es T T' comps hrp' hnog hT]
  have hWstep : ∀ (T T' : FSTree) (x : String) (comps : List String) (d : FileData),
      writeFile T (x :: comps) d = some T' →
      FS.writeFileP ⟨gitStateRoot fs.root (fs.resolve p) es T, fs.cwd⟩
        (pyJoin (pyJoin p [".git"]) (x :: comps)) d =
      some ⟨gitStateRoot fs.root (fs.resolve p) es T', fs.cwd⟩ := by
    intro T T' x comps d hT
    unfold FS.writeFileP
    dsimp only
    have hr : FS.resolve (⟨gitStateRoot fs.root (fs.resolve p) es T, fs.cwd⟩ : FS)
        (pyJoin (pyJoin p [".git"]) (x :: comps)) =
        fs.resolve p ++ ".git" :: x :: comps := hres (x :: comps)
    rw [hr, gitState_write fs.root (fs.resolve p) es T T' x comps d hrp' hnog hT]
  have hdirnil : ∀ (T : FSTree) (es2 : List (String × FSTree)),
      lookupT T [] = some (FSTree.dir es2) →
      repo_dir ⟨gitStateRoot fs.root (fs.resolve p) es T, fs.cwd⟩
        ⟨p, pyJoin p [".git"], GitConfig.empty⟩ [] false =
      Res.ok (some (pyJoin (pyJoin p [".git"]) []))
        ⟨gitStateRoot fs.root (fs.resolve p) es T, fs.cwd⟩ := by
    intro T es2 hT
    unfold repo_dir
    rw [show repo_path ⟨p, pyJoin p [".git"], GitConfig.empty⟩ ([] : List String) =
      pyJoin (pyJoin p [".git"]) [] from rfl]
    rw [hLstep T [] (some (FSTree.dir es2)) hT]
  have hl1 : fs.lookupPath (pyJoin (pyJoin p [".git"]) ["branches"]) = none := by
    unfold FS.lookupPath
    rw [hres, lookupT_append, hrp']
    simp [lookupT, hnog]
  have hmk1 : fs.makedirsP (pyJoin (pyJoin p [".git"]) ["branches"]) =
      some ⟨gitStateRoot fs.root (fs.resolve p) es skel1, fs.cwd⟩ := by
    unfold FS.makedirsP
    rw [hres, gitState_first fs.root (fs.resolve p) es hrp' hnog]
    rfl
  have ha1 : repo_assert_dir fs ⟨p, pyJoin p [".git"], GitConfig.empty⟩ ["branches"] =
      Res.ok () ⟨gitStateRoot fs.root (fs.resolve p) es skel1, fs.cwd⟩ := by
    unfold repo_assert_dir repo_dir
    rw [show repo_path ⟨p, pyJoin p [".git"], GitConfig.empty⟩ ["branches"] =
      pyJoin (pyJoin p [".git"]) ["branches"] from rfl]
    rw [hl1]
    dsimp only
    rw [if_pos rfl, hmk1]
  have ha2 : repo_assert_dir ⟨gitStateRoot fs.root (fs.resolve p) es skel1, fs.cwd⟩
      ⟨p, pyJoin p [".git"], GitConfig.empty⟩ ["objects"] =
      Res.ok () ⟨gitStateRoot fs.root (fs.resolve p) es skel2, fs.cwd⟩ := by
    unfold repo_assert_dir repo_dir
    rw [show repo_path ⟨p, pyJoin p [".git"], GitConfig.empty⟩ ["objects"] =
      pyJoin (pyJoin p [".git"]) ["objects"] from rfl]
    rw [hLstep skel1 ["objects"] none rfl]
    dsimp only
    rw [if_pos rfl, hMstep skel1 skel2 ["objects"] rfl]
  have ha3 : repo_assert_dir ⟨gitStateRoot fs.root (fs.resolve p) es skel2, fs.cwd⟩
      ⟨p, pyJoin p [".git"], GitConfig.empty⟩ ["refs", "tags"] =
      Res.ok () ⟨gitStateRoot fs.root (fs.resolve p) es skel3, fs.cwd⟩ := by
    unfold repo_assert_dir repo_dir
    rw [show repo_path ⟨p, pyJoin p [".git"], GitConfig.empty⟩ ["refs", "tags"] =
      pyJoin (pyJoin p [".git"]) ["refs", "tags"] from rfl]
    rw [hLstep skel2 ["refs", "tags"] none rfl]
    dsimp only
    rw [if_pos rfl, hMstep skel2 skel3 ["refs", "tags"] rfl]
  have ha4 : repo_assert_dir ⟨gitStateRoot fs.root (fs.resolve p) es skel3, fs.cwd⟩
      ⟨p, pyJoin p [".git"], GitConfig.empty⟩ ["refs", "heads"] =
      Res.ok () ⟨gitStateRoot fs.root (fs.resolve p) es skel4, fs.cwd⟩ := by
    unfold repo_assert_dir repo_dir
    rw [show repo_path ⟨p, pyJoin p [".git"], GitConfig.empty⟩ ["refs", "heads"] =
      pyJoin (pyJoin p [".git"]) ["refs", "heads"] from rfl]
    rw [hLstep skel3 ["refs", "heads"] none rfl]
    dsimp only
    rw [if_pos rfl, hMstep skel3 skel4 ["refs", "heads"] rfl]
  have hw1 : repo_write ⟨gitStateRoot fs.root (fs.resolve p) es skel4, fs.cwd⟩
      ⟨p, pyJoin p [".git"], GitConfig.empty⟩ "description"
      (FileData.text descriptionText) =
      Res.ok () ⟨gitStateRoot fs.root (fs.resolve p) es skel5, fs.cwd⟩ := by
    unfold repo_write repo_file
    rw [show List.dropLast ["description"] = ([] : List String) from rfl]
    rw [hdirnil skel4 _ rfl]
    dsimp only
    rw [show repo_path ⟨p, pyJoin p [".git"], GitConfig.empty⟩ ["description"] =
      pyJoin (pyJoin p [".git"]) ["description"] from rfl]
    rw [hWstep skel4 skel5 "description" [] (FileData.text descriptionText) rfl]
  have hw2 : repo_write ⟨gitStateRoot fs.root (fs.resolve p) es skel5, fs.cwd⟩
      ⟨p, pyJoin p [".git"], GitConfig.empty⟩ "HEAD" (FileData.text headText) =
      Res.ok () ⟨gitStateRoot fs.root (fs.resolve p) es skel6, fs.cwd⟩ := by
    unfold repo_write repo_file
    rw [show List.dropLast ["HEAD"] = ([] : List String) from rfl]
    rw [hdirnil skel5 _ rfl]
    dsimp only
    rw [show repo_path ⟨p, pyJoin p [".git"], GitConfig.empty⟩ ["HEAD"] =
      pyJoin (pyJoin p [".git"]) ["HEAD"] from rfl]
    rw [hWstep skel5 skel6 "HEAD" [] (FileData.text headText) rfl]
  have hw3 : repo_write ⟨gitStateRoot fs.root (fs.resolve p) es skel6, fs.cwd⟩
      ⟨p, pyJoin p [".git"], GitConfig.empty⟩ "HEAD"
      (FileData.iniConf repo_default_config) =
      Res.ok () ⟨gitStateRoot fs.root (fs.resolve p) es skel7, fs.cwd⟩ := by
    unfold repo_write repo_file
    rw [show List.dropLast ["HEAD"] = ([] : List String) from rfl]
    rw [hdirnil skel6 _ rfl]
    dsimp only
    rw [show repo_path ⟨p, pyJoin p [".git"], GitConfig.empty⟩ ["HEAD"] =
      pyJoin (pyJoin p [".git"]) ["HEAD"] from rfl]
    rw [hWstep skel6 skel7 "HEAD" [] (FileData.iniConf repo_default_config) rfl]
  have hdirs : repo_create_dirs fs ⟨p, pyJoin p [".git"], GitConfig.empty⟩ =
      Res.ok () ⟨gitStateRoot fs.root (fs.resolve p) es skel4, fs.cwd⟩ := by
    unfold repo_create_dirs
    rw [ha1]
    dsimp only
    rw [ha2]
    dsimp only
    rw [ha3]
    dsimp only
    rw [ha4]
  have hrun : repo_create fs p =
      Res.ok ⟨p, pyJoin p [".git"], GitConfig.empty⟩
        ⟨gitStateRoot fs.root (fs.resolve p) es skel7, fs.cwd⟩ := by
    unfold repo_create
    rw [hinit]
    dsimp only
    rw [hcheck]
    dsimp only
    rw [hdirs]
    dsimp only
    rw [hw1]
    dsimp only
    rw [hw2]
    dsimp only
    rw [hw3]
  refine ⟨?_, ?_, ?_⟩
  · rw [hrun]
    rfl
  · rw [hrun]
    rfl
  · intro q h1 h2
    rw [hrun]
    exact gitState_frame fs.root (fs.resolve p) es skel7 q hrp' h1 h2

/-- A filesystem with a pre-existing project directory holding one file
and no `.git` entry. -/
def fsPre : FS :=
  ⟨FSTree.dir [("proj", FSTree.dir [("readme", FSTree.file (FileData.text "hi"))])], []⟩

/-- The absolute path `/proj`. -/
def pProj : PyPath := ⟨true, ["proj"]⟩

/-- Witness for C10: bootstrapping inside `/proj` completes and the
pre-existing `/proj/readme` reads back unchanged. -/
theorem create_frame_outside_gitdir_witness :
    (repo_create fsPre pProj).isOk = true ∧
    lookupT (repo_create fsPre pProj).fs.root ["proj", "readme"] =
      lookupT fsPre.root ["proj", "readme"] :=
  ⟨(create_frame_outside_gitdir fsPre pProj
      [("readme", FSTree.file (FileData.text "hi"))] rfl rfl).1,
   (create_frame_outside_gitdir fsPre pProj
      [("readme", FSTree.file (FileData.text "hi"))] rfl rfl).2.2
      ["proj", "readme"] rfl rfl⟩
